import Mathlib

/-!
Verification of the rds-iam-proxy connection-handling core against its
natural-language specification.  The Go source is embedded shallowly:

* package `config` — profile record and validation (`internal/config`);
* package `token`  — the token cache (`internal/token`);
* package `proxy`  — backend pool, proxy server helpers (`internal/proxy`).

Machine integers are modelled as `Int`/`Nat` (Go `int` values in this code
never approach overflow), wall-clock instants and durations as `Int`
(nanosecond ticks; only ordering and addition matter), Go maps as
association lists with most-recent-insertion-first lookup, and fallible
calls as `Except String`.  The injected AWS SDK entry points
(`loadDefaultAWSConfig`, `buildRDSAuthToken`) are passed explicitly as an
environment of call-indexed functions, mirroring the dependency-injection
seam the tests use; the call index plays the role of the fakes' atomic
counters.
-/

namespace RdsIamProxy

/-- Equality of embedded fallible results is decidable; lets concrete
validation outcomes be settled by `decide`. -/
instance {ε α : Type} [DecidableEq ε] [DecidableEq α] :
    DecidableEq (Except ε α)
  | .error a, .error b =>
    if h : a = b then .isTrue (by rw [h])
    else .isFalse (by intro hc; cases hc; exact h rfl)
  | .error a, .ok b => .isFalse (fun hc => Except.noConfusion hc)
  | .ok a, .error b => .isFalse (fun hc => Except.noConfusion hc)
  | .ok a, .ok b =>
    if h : a = b then .isTrue (by rw [h])
    else .isFalse (by intro hc; cases hc; exact h rfl)

/-- Association-list lookup: first binding for the key wins.  Models Go map
reads given that `insertKV` conses the newest binding in front. -/
def lookupKV {α : Type} (k : String) : List (String × α) → Option α
  | [] => none
  | (k', v) :: rest => if k' = k then some v else lookupKV k rest

/-- Association-list insert modelling a Go map write `m[k] = v`: the new
binding shadows any older one under `lookupKV`. -/
def insertKV {α : Type} (k : String) (v : α) (m : List (String × α)) :
    List (String × α) :=
  (k, v) :: m

theorem lookupKV_insert_self {α : Type} (k : String) (v : α)
    (m : List (String × α)) : lookupKV k (insertKV k v m) = some v := by
  simp [lookupKV, insertKV]

theorem lookupKV_insert_ne {α : Type} {k k' : String} (v : α)
    (m : List (String × α)) (h : k' ≠ k) :
    lookupKV k (insertKV k' v m) = lookupKV k m := by
  simp [lookupKV, insertKV, h]

namespace config

/-- `config.Profile` from `internal/config/config.go`. -/
structure Profile where
  Name : String
  ListenAddr : String
  MaxConns : Int
  ProxyUser : String
  ProxyPassword : String
  RDSHost : String
  RDSPort : Int
  RDSRegion : String
  RDSDBUser : String
  AWSProfile : String
  DefaultDB : String
  CABundle : String
deriving DecidableEq, Repr

/-- A profile with every field zero-valued, mirroring a zero
`config.Profile` literal in Go; concrete instances override fields. -/
def Profile.zero : Profile :=
  { Name := "", ListenAddr := "", MaxConns := 0, ProxyUser := "",
    ProxyPassword := "", RDSHost := "", RDSPort := 0, RDSRegion := "",
    RDSDBUser := "", AWSProfile := "", DefaultDB := "", CABundle := "" }

end config

namespace token

open config

/-- `token.CachedToken`. -/
structure CachedToken where
  Value : String
  ExpiresAt : Int
deriving DecidableEq, Repr

/-- `token.Cache` state.  `loadCalls`/`buildCalls` instrument the number of
invocations of the injected `loadDefaultAWSConfig` / `buildRDSAuthToken`
references, matching the counters the repository's tests attach to their
fakes.  Credential providers are opaque handles (`Nat`) issued by the
loader. -/
structure Cache where
  entries : List (String × CachedToken)
  awsProviders : List (String × Nat)
  refreshBefore : Int
  tokenTTL : Int
  loadCalls : Nat
  buildCalls : Nat
deriving DecidableEq, Repr

/-- `token.New`. -/
def Cache.New (refreshBefore tokenTTL : Int) : Cache :=
  { entries := [], awsProviders := [], refreshBefore := refreshBefore,
    tokenTTL := tokenTTL, loadCalls := 0, buildCalls := 0 }

/-- The injected AWS SDK surface.  `load i region namedProfile` is the
`i`-th call to `loadDefaultAWSConfig` and yields a provider handle;
`build i endpoint region dbUser provider` is the `i`-th call to
`buildRDSAuthToken` and yields the opaque token string. -/
structure AwsEnv where
  load : Nat → String → String → Except String Nat
  build : Nat → String → String → String → Nat → Except String String

/-- `net.JoinHostPort` (stdlib): brackets the host when it contains a
colon. -/
def joinHostPort (host port : String) : String :=
  if host.data.contains ':' then "[" ++ host ++ "]:" ++ port
  else host ++ ":" ++ port

/-- `token.cacheKey`. -/
def cacheKey (p : Profile) : String :=
  p.Name ++ "|" ++ p.RDSHost ++ "|" ++ toString p.RDSPort ++ "|" ++
    p.RDSRegion ++ "|" ++ p.RDSDBUser ++ "|" ++ p.AWSProfile

/-- `token.providerKey`. -/
def providerKey (p : Profile) : String :=
  p.RDSRegion ++ "|" ++ p.AWSProfile

/-- `token.Cache.getOrInitProvider`: memoize the credentials provider per
`providerKey`; on a miss, call the SDK-config loader and store the
result. -/
def Cache.getOrInitProvider (env : AwsEnv) (c : Cache) (p : Profile) :
    Except String (Nat × Cache) :=
  let key := providerKey p
  match lookupKV key c.awsProviders with
  | some provider => .ok (provider, c)
  | none =>
    match env.load c.loadCalls p.RDSRegion p.AWSProfile with
    | .error e => .error ("load aws config: " ++ e)
    | .ok provider =>
      .ok (provider,
        { c with awsProviders := insertKV key provider c.awsProviders,
                 loadCalls := c.loadCalls + 1 })

/-- `token.build`: call the token builder and wrap the result with
`ExpiresAt = now + ttl`. -/
def buildToken (env : AwsEnv) (p : Profile) (now ttl : Int)
    (provider : Nat) (callIdx : Nat) : Except String CachedToken :=
  let endpoint := joinHostPort p.RDSHost (toString p.RDSPort)
  match env.build callIdx endpoint p.RDSRegion p.RDSDBUser provider with
  | .error e => .error ("build auth token: " ++ e)
  | .ok tok => .ok { Value := tok, ExpiresAt := now + ttl }

/-- The slow path of `token.Cache.Get`: resolve the provider, call the
builder, store the fresh token under `key` and return it. -/
def Cache.mint (env : AwsEnv) (c : Cache) (now : Int) (p : Profile)
    (key : String) : Except String (CachedToken × Cache) :=
  match Cache.getOrInitProvider env c p with
  | .error e => .error e
  | .ok (provider, c1) =>
    match buildToken env p now c1.tokenTTL provider c1.buildCalls with
    | .error e => .error e
    | .ok fresh =>
      .ok (fresh,
        { c1 with entries := insertKV key fresh c1.entries,
                  buildCalls := c1.buildCalls + 1 })

/-- `token.Cache.Get`: return a stored entry verbatim when
`ExpiresAt - now > refreshBefore` (Go: `time.Until(entry.ExpiresAt) >
c.refreshBefore`), otherwise mint. -/
def Cache.Get (env : AwsEnv) (c : Cache) (now : Int) (p : Profile) :
    Except String (CachedToken × Cache) :=
  let key := cacheKey p
  match lookupKV key c.entries with
  | some entry =>
    if entry.ExpiresAt - now > c.refreshBefore then .ok (entry, c)
    else Cache.mint env c now p key
  | none => Cache.mint env c now p key

/-- A sequence of `Get` calls threaded through the cache state; each
request is a (wall-clock instant, profile) pair.  Fails as soon as one
`Get` fails. -/
def Cache.GetSeq (env : AwsEnv) (c : Cache) :
    List (Int × Profile) → Except String Cache
  | [] => .ok c
  | (now, p) :: rest =>
    match Cache.Get env c now p with
    | .error e => .error e
    | .ok (_, c') => Cache.GetSeq env c' rest

/-- Deterministic SDK fakes indexed by call count, mirroring the fakes the
repository's tests install for `loadDefaultAWSConfig` / `buildRDSAuthToken`. -/
def fakeEnv : AwsEnv :=
  { load := fun i _ _ => .ok i,
    build := fun i _ _ _ _ => .ok ("token-call-" ++ toString i) }

/-- The profile the token-cache tests use. -/
def profileP1 : Profile :=
  { Profile.zero with
      Name := "p1", RDSHost := "db.example", RDSPort := 3306,
      RDSRegion := "eu-west-1", RDSDBUser := "db_user_1", AWSProfile := "dev" }

theorem lookupKV_mem {α : Type} {k : String} {v : α} :
    ∀ {m : List (String × α)}, lookupKV k m = some v → (k, v) ∈ m := by
  intro m
  induction m with
  | nil => intro h; simp [lookupKV] at h
  | cons hd tl ih =>
    intro h
    obtain ⟨k', v'⟩ := hd
    by_cases hk : k' = k
    · subst hk
      simp [lookupKV] at h
      subst h
      exact List.mem_cons_self _ _
    · simp only [lookupKV, if_neg hk] at h
      exact List.mem_cons_of_mem _ (ih h)

theorem getOrInitProvider_hit {env : AwsEnv} {c : Cache} {p : Profile}
    {prov : Nat} (h : lookupKV (providerKey p) c.awsProviders = some prov) :
    Cache.getOrInitProvider env c p = .ok (prov, c) := by
  unfold Cache.getOrInitProvider
  simp [h]

theorem getOrInitProvider_load_ok {env : AwsEnv} {c : Cache} {p : Profile}
    {prov : Nat}
    (h1 : lookupKV (providerKey p) c.awsProviders = none)
    (h2 : env.load c.loadCalls p.RDSRegion p.AWSProfile = .ok prov) :
    Cache.getOrInitProvider env c p =
      .ok (prov,
        { c with awsProviders := insertKV (providerKey p) prov c.awsProviders,
                 loadCalls := c.loadCalls + 1 }) := by
  unfold Cache.getOrInitProvider
  simp [h1, h2]

theorem getOrInitProvider_ok {env : AwsEnv} {c : Cache} {p : Profile}
    {prov : Nat} {c1 : Cache}
    (h : Cache.getOrInitProvider env c p = .ok (prov, c1)) :
    c1.entries = c.entries ∧ c1.buildCalls = c.buildCalls ∧
    c1.tokenTTL = c.tokenTTL ∧ c1.refreshBefore = c.refreshBefore ∧
    lookupKV (providerKey p) c1.awsProviders = some prov := by
  cases hlk : lookupKV (providerKey p) c.awsProviders with
  | some v =>
    rw [getOrInitProvider_hit hlk] at h
    simp only [Except.ok.injEq, Prod.mk.injEq] at h
    obtain ⟨rfl, rfl⟩ := h
    exact ⟨rfl, rfl, rfl, rfl, hlk⟩
  | none =>
    cases hload : env.load c.loadCalls p.RDSRegion p.AWSProfile with
    | error e =>
      unfold Cache.getOrInitProvider at h
      simp [hlk, hload] at h
    | ok v =>
      rw [getOrInitProvider_load_ok hlk hload] at h
      simp only [Except.ok.injEq, Prod.mk.injEq] at h
      obtain ⟨rfl, rfl⟩ := h
      exact ⟨rfl, rfl, rfl, rfl, lookupKV_insert_self _ _ _⟩

theorem buildToken_ok {env : AwsEnv} {p : Profile} {now ttl : Int}
    {provider callIdx : Nat} {t : CachedToken}
    (h : buildToken env p now ttl provider callIdx = .ok t) :
    t.ExpiresAt = now + ttl := by
  unfold buildToken at h
  cases hb : env.build callIdx (joinHostPort p.RDSHost (toString p.RDSPort))
      p.RDSRegion p.RDSDBUser provider with
  | error e => simp [hb] at h
  | ok tok =>
    simp only [hb, Except.ok.injEq] at h
    subst h
    rfl

theorem mint_ok {env : AwsEnv} {c : Cache} {now : Int} {p : Profile}
    {key : String} {t : CachedToken} {c' : Cache}
    (h : Cache.mint env c now p key = .ok (t, c')) :
    t.ExpiresAt = now + c.tokenTTL ∧
    lookupKV key c'.entries = some t ∧
    c'.buildCalls = c.buildCalls + 1 ∧
    c'.refreshBefore = c.refreshBefore ∧
    c'.tokenTTL = c.tokenTTL := by
  unfold Cache.mint at h
  cases hinit : Cache.getOrInitProvider env c p with
  | error e => simp [hinit] at h
  | ok pr =>
    obtain ⟨provider, c1⟩ := pr
    obtain ⟨he, hb, httl, hrb, _⟩ := getOrInitProvider_ok hinit
    rw [hinit] at h
    cases hbuild : buildToken env p now c1.tokenTTL provider c1.buildCalls with
    | error e => simp [hbuild] at h
    | ok fresh =>
      simp only [hbuild, Except.ok.injEq, Prod.mk.injEq] at h
      obtain ⟨rfl, rfl⟩ := h
      refine ⟨?_, lookupKV_insert_self _ _ _, by simp [hb], by simp [hrb],
        by simp [httl]⟩
      have := buildToken_ok hbuild
      rw [this, httl]

theorem mint_providers_of_hit {env : AwsEnv} {c : Cache} {now : Int}
    {p : Profile} {key : String} {t : CachedToken} {c' : Cache} {prov : Nat}
    (hhit : lookupKV (providerKey p) c.awsProviders = some prov)
    (h : Cache.mint env c now p key = .ok (t, c')) :
    c'.awsProviders = c.awsProviders ∧ c'.loadCalls = c.loadCalls := by
  unfold Cache.mint at h
  rw [getOrInitProvider_hit hhit] at h
  cases hbuild : buildToken env p now c.tokenTTL prov c.buildCalls with
  | error e => simp [hbuild] at h
  | ok fresh =>
    simp only [hbuild, Except.ok.injEq, Prod.mk.injEq] at h
    obtain ⟨rfl, rfl⟩ := h
    exact ⟨rfl, rfl⟩

theorem Get_cases {env : AwsEnv} {c : Cache} {now : Int} {p : Profile}
    {t : CachedToken} {c' : Cache}
    (h : Cache.Get env c now p = .ok (t, c')) :
    c' = c ∨ Cache.mint env c now p (cacheKey p) = .ok (t, c') := by
  simp only [Cache.Get] at h
  cases hlk : lookupKV (cacheKey p) c.entries with
  | some entry =>
    simp only [hlk] at h
    by_cases hfresh : entry.ExpiresAt - now > c.refreshBefore
    · rw [if_pos hfresh] at h
      simp only [Except.ok.injEq, Prod.mk.injEq] at h
      exact Or.inl h.2.symm
    · rw [if_neg hfresh] at h
      exact Or.inr h
  | none =>
    simp only [hlk] at h
    exact Or.inr h

theorem Get_preserves_provider {env : AwsEnv} {c : Cache} {now : Int}
    {p : Profile} {t : CachedToken} {c' : Cache} {prov : Nat}
    (hhit : lookupKV (providerKey p) c.awsProviders = some prov)
    (h : Cache.Get env c now p = .ok (t, c')) :
    lookupKV (providerKey p) c'.awsProviders = some prov ∧
    c'.loadCalls = c.loadCalls := by
  rcases Get_cases h with rfl | hm
  · exact ⟨hhit, rfl⟩
  · obtain ⟨hp, hl⟩ := mint_providers_of_hit hhit hm
    exact ⟨hp ▸ hhit, hl⟩

theorem Get_from_new_load {env : AwsEnv} {rb ttl now : Int} {p : Profile}
    {t : CachedToken} {c' : Cache}
    (h : Cache.Get env (Cache.New rb ttl) now p = .ok (t, c')) :
    (∃ prov, lookupKV (providerKey p) c'.awsProviders = some prov) ∧
    c'.loadCalls = 1 := by
  unfold Cache.Get Cache.mint Cache.getOrInitProvider buildToken at h
  simp only [Cache.New, lookupKV] at h
  cases hload : env.load 0 p.RDSRegion p.AWSProfile with
  | error e => simp [hload] at h
  | ok provider =>
    simp only [hload] at h
    cases hbuild : env.build 0 (joinHostPort p.RDSHost (toString p.RDSPort))
        p.RDSRegion p.RDSDBUser provider with
    | error e => simp [hbuild] at h
    | ok tok =>
      simp only [hbuild, Except.ok.injEq, Prod.mk.injEq] at h
      obtain ⟨rfl, rfl⟩ := h
      exact ⟨⟨provider, lookupKV_insert_self _ _ _⟩, rfl⟩

theorem Get_fresh_hit {env : AwsEnv} {c : Cache} {now : Int} {p : Profile}
    {e : CachedToken}
    (hlk : lookupKV (cacheKey p) c.entries = some e)
    (hfresh : e.ExpiresAt - now > c.refreshBefore) :
    Cache.Get env c now p = .ok (e, c) := by
  simp [Cache.Get, hlk, hfresh]

theorem Get_eq_mint_of_none {env : AwsEnv} {c : Cache} {now : Int}
    {p : Profile} (hlk : lookupKV (cacheKey p) c.entries = none) :
    Cache.Get env c now p = Cache.mint env c now p (cacheKey p) := by
  simp [Cache.Get, hlk]

theorem Get_eq_mint_of_not_fresh {env : AwsEnv} {c : Cache} {now : Int}
    {p : Profile}
    (hno : ∀ e : CachedToken, lookupKV (cacheKey p) c.entries = some e →
      ¬ e.ExpiresAt - now > c.refreshBefore) :
    Cache.Get env c now p = Cache.mint env c now p (cacheKey p) := by
  cases hlk : lookupKV (cacheKey p) c.entries with
  | some e => simp [Cache.Get, hlk, hno e hlk]
  | none => exact Get_eq_mint_of_none hlk

theorem GetSeq_preserves_provider {env : AwsEnv} {pk : String} :
    ∀ (reqs : List (Int × Profile)) (c c' : Cache),
      (∀ q ∈ reqs, providerKey q.2 = pk) →
      (∃ prov, lookupKV pk c.awsProviders = some prov) →
      Cache.GetSeq env c reqs = .ok c' →
      c'.loadCalls = c.loadCalls := by
  intro reqs
  induction reqs with
  | nil =>
    intro c c' _ _ h
    unfold Cache.GetSeq at h
    cases h; rfl
  | cons q rest ih =>
    intro c c' hkeys hprov h
    obtain ⟨now, p⟩ := q
    unfold Cache.GetSeq at h
    split at h
    next => exact absurd h (by simp)
    next t cmid hget =>
      obtain ⟨prov, hlp⟩ := hprov
      have hpk : providerKey p = pk := hkeys (now, p) (List.mem_cons_self _ _)
      have hstep := Get_preserves_provider (hpk ▸ hlp) hget
      have htail := ih cmid c'
        (fun q hq => hkeys q (List.mem_cons_of_mem _ hq))
        ⟨prov, hpk ▸ hstep.1⟩ h
      omega

/-- C1: Token cache freshness policy.  (1) A stored entry with
`ExpiresAt - now > refreshBefore` is returned verbatim with the cache
untouched (so the token builder is not invoked).  (2) When no such fresh
entry exists, `Get` is exactly the mint path, and (3) a successful mint
stores and returns a token with `ExpiresAt = now + tokenTTL`, invoking the
builder exactly once.  (4) With `refreshBefore ≥ tokenTTL`, every `Get`
takes the mint path — stated for caches whose entries all satisfy
`ExpiresAt ≤ now + tokenTTL`, the invariant every reachable state enjoys
because each entry was inserted at some instant ≤ now.  (5) With
`refreshBefore < tokenTTL`, two back-to-back successful `Get` calls from a
fresh cache return the identical token and invoke the builder exactly
once. -/
theorem C1_token_cache_freshness :
    (∀ (env : AwsEnv) (c : Cache) (now : Int) (p : Profile)
        (e : CachedToken),
      lookupKV (cacheKey p) c.entries = some e →
      e.ExpiresAt - now > c.refreshBefore →
      Cache.Get env c now p = .ok (e, c)) ∧
    (∀ (env : AwsEnv) (c : Cache) (now : Int) (p : Profile),
      (∀ e : CachedToken, lookupKV (cacheKey p) c.entries = some e →
        ¬ e.ExpiresAt - now > c.refreshBefore) →
      Cache.Get env c now p = Cache.mint env c now p (cacheKey p)) ∧
    (∀ (env : AwsEnv) (c : Cache) (now : Int) (p : Profile) (key : String)
        (t : CachedToken) (c' : Cache),
      Cache.mint env c now p key = .ok (t, c') →
      t.ExpiresAt = now + c.tokenTTL ∧ lookupKV key c'.entries = some t ∧
      c'.buildCalls = c.buildCalls + 1) ∧
    (∀ (env : AwsEnv) (c : Cache) (now : Int) (p : Profile),
      c.tokenTTL ≤ c.refreshBefore →
      (∀ kv ∈ c.entries, kv.2.ExpiresAt ≤ now + c.tokenTTL) →
      Cache.Get env c now p = Cache.mint env c now p (cacheKey p)) ∧
    (∀ (env : AwsEnv) (rb ttl now : Int) (p : Profile) (t1 : CachedToken)
        (c1 : Cache),
      rb < ttl →
      Cache.Get env (Cache.New rb ttl) now p = .ok (t1, c1) →
      Cache.Get env c1 now p = .ok (t1, c1) ∧ c1.buildCalls = 1) := by
  refine ⟨fun env c now p e hlk hfresh => Get_fresh_hit hlk hfresh,
    fun env c now p hno => Get_eq_mint_of_not_fresh hno,
    fun env c now p key t c' h =>
      ⟨(mint_ok h).1, (mint_ok h).2.1, (mint_ok h).2.2.1⟩,
    ?_, ?_⟩
  · intro env c now p hle hbound
    apply Get_eq_mint_of_not_fresh
    intro e hlk
    have hb := hbound _ (lookupKV_mem hlk)
    simp only at hb
    omega
  · intro env rb ttl now p t1 c1 hlt h
    rw [Get_eq_mint_of_none (by simp [Cache.New, lookupKV])] at h
    obtain ⟨hexp, hstore, hbc, hrb, httl⟩ := mint_ok h
    simp only [Cache.New] at hexp hbc hrb
    have hfresh : t1.ExpiresAt - now > c1.refreshBefore := by omega
    exact ⟨Get_fresh_hit hstore hfresh, hbc⟩

/-- First token minted by `fakeEnv` starting from an empty cache. -/
def tokenFirst : CachedToken := { Value := "token-call-0", ExpiresAt := 15 }

/-- The cache state after one successful `Get` of `profileP1` at instant 0
on `Cache.New 5 15` under `fakeEnv`. -/
def cacheAfterFirst : Cache :=
  { entries := [(cacheKey profileP1, tokenFirst)],
    awsProviders := [(providerKey profileP1, 0)],
    refreshBefore := 5, tokenTTL := 15, loadCalls := 1, buildCalls := 1 }

theorem C1_witness :
    (5 : Int) < 15 ∧
    Cache.Get fakeEnv (Cache.New 5 15) 0 profileP1 =
      .ok (tokenFirst, cacheAfterFirst) ∧
    Cache.Get fakeEnv cacheAfterFirst 0 profileP1 =
      .ok (tokenFirst, cacheAfterFirst) ∧
    cacheAfterFirst.buildCalls = 1 :=
  ⟨by decide, by rfl,
    (C1_token_cache_freshness.2.2.2.2 fakeEnv 5 15 0 profileP1 tokenFirst
      cacheAfterFirst (by decide) (by rfl)).1,
    (C1_token_cache_freshness.2.2.2.2 fakeEnv 5 15 0 profileP1 tokenFirst
      cacheAfterFirst (by decide) (by rfl)).2⟩

/-- C3: Credentials-provider memoization.  Starting from a fresh cache, any
non-empty sequence of successful `Get` calls whose profiles all carry the
same (region, named credential profile) pair invokes the SDK-config loader
exactly once — even when every call mints a new token. -/
theorem C3_provider_memoization :
    ∀ (env : AwsEnv) (rb ttl : Int) (r a : String)
      (reqs : List (Int × Profile)) (c' : Cache),
      reqs ≠ [] →
      (∀ q ∈ reqs, q.2.RDSRegion = r ∧ q.2.AWSProfile = a) →
      Cache.GetSeq env (Cache.New rb ttl) reqs = .ok c' →
      c'.loadCalls = 1 := by
  intro env rb ttl r a reqs c' hne hkeys h
  match reqs, hne, hkeys, h with
  | (now, p) :: rest, _, hkeys, h =>
    unfold Cache.GetSeq at h
    cases hget : Cache.Get env (Cache.New rb ttl) now p with
    | error e => simp [hget] at h
    | ok pr =>
      obtain ⟨t, c1⟩ := pr
      simp only [hget] at h
      obtain ⟨⟨prov, hprov⟩, hload1⟩ := Get_from_new_load hget
      have hkey : ∀ q ∈ rest, providerKey q.2 = providerKey p := by
        intro q hq
        have h1 := hkeys q (List.mem_cons_of_mem _ hq)
        have h2 : p.RDSRegion = r ∧ p.AWSProfile = a :=
          hkeys (now, p) (List.mem_cons_self _ _)
        simp only [providerKey, h1.1, h1.2, h2.1, h2.2]
      have htail := GetSeq_preserves_provider rest c1 c' hkey ⟨prov, hprov⟩ h
      omega

/-- The cache state after `GetSeq fakeEnv (Cache.New 20 15)
[(0, profileP1), (1, profileP1)]`: both calls mint (refreshBefore >
tokenTTL) yet the loader ran once. -/
def cacheAfterSeq : Cache :=
  { entries := [(cacheKey profileP1, { Value := "token-call-1", ExpiresAt := 16 }),
                (cacheKey profileP1, { Value := "token-call-0", ExpiresAt := 15 })],
    awsProviders := [(providerKey profileP1, 0)],
    refreshBefore := 20, tokenTTL := 15, loadCalls := 1, buildCalls := 2 }

theorem C3_witness :
    Cache.GetSeq fakeEnv (Cache.New 20 15) [(0, profileP1), (1, profileP1)] =
      .ok cacheAfterSeq ∧
    cacheAfterSeq.loadCalls = 1 :=
  ⟨by rfl,
    C3_provider_memoization fakeEnv 20 15 "eu-west-1" "dev"
      [(0, profileP1), (1, profileP1)] cacheAfterSeq (by simp) (by decide)
      (by rfl)⟩

/-- First of two distinct profiles that collide on `cacheKey`: its name
contains the separator `|`. -/
def profileC10a : Profile :=
  { Profile.zero with
      Name := "analytics|prod", RDSHost := "db", RDSPort := 3306,
      RDSRegion := "eu-west-1", RDSDBUser := "u" }

/-- Second colliding profile: the `|` sits in the host instead. -/
def profileC10b : Profile :=
  { Profile.zero with
      Name := "analytics", RDSHost := "prod|db", RDSPort := 3306,
      RDSRegion := "eu-west-1", RDSDBUser := "u" }

/-- The cache after minting a token for `profileC10a`. -/
def cacheC10 : Cache :=
  { entries := [(cacheKey profileC10a,
      { Value := "token-call-0", ExpiresAt := 15 })],
    awsProviders := [(providerKey profileC10a, 0)],
    refreshBefore := 5, tokenTTL := 15, loadCalls := 1, buildCalls := 1 }

/-- C10: `cacheKey` joins profile fields with the unescaped separator `|`,
so it is not injective: `profileC10a ≠ profileC10b` yet their keys agree,
and after a `Get` mints a token for the first profile, a `Get` for the
second returns that same token with the cache (in particular the
builder-call count) unchanged. -/
theorem C10_cacheKey_collision :
    profileC10a ≠ profileC10b ∧
    cacheKey profileC10a = cacheKey profileC10b ∧
    Cache.Get fakeEnv (Cache.New 5 15) 0 profileC10a =
      .ok ({ Value := "token-call-0", ExpiresAt := 15 }, cacheC10) ∧
    Cache.Get fakeEnv cacheC10 0 profileC10b =
      .ok ({ Value := "token-call-0", ExpiresAt := 15 }, cacheC10) ∧
    cacheC10.buildCalls = 1 :=
  ⟨by decide, by decide, by rfl, by rfl, rfl⟩

end token

namespace proxy

/-- A pooled backend session as `Borrow` observes it: its creation
timestamp, the outcome its `Ping` liveness check would produce, the compact
reason string when the ping fails, and an identity tag.  (The pool channel
only ever carries non-nil items — `fillOne` enqueues freshly built
sessions — so the `pooled == nil` arm of `Borrow` is unreachable and not
modelled.) -/
structure PooledConn where
  createdAt : Int
  pingOk : Bool
  pingErr : String
  id : Nat
deriving DecidableEq, Repr

/-- What a `Borrow` call ends up returning. -/
inductive BorrowOutcome
  | ctxErr
  | factory
  | pooled (id : Nat)
deriving DecidableEq, Repr

/-- Observable effects of one `Borrow` call.  `summaryLines` counts the
info-level "refreshed stale pooled connections" lines emitted;
`staleDiscarded` is the final value of the per-call counter (incremented
only on liveness-check failures); `ageDiscards` counts sessions discarded
for exceeding the maximum age (the code closes them without touching the
counter); `refills` counts `go p.fillOne()` tasks enqueued. -/
structure BorrowResult where
  outcome : BorrowOutcome
  summaryLines : Nat
  staleDiscarded : Nat
  ageDiscards : Nat
  refills : Nat
deriving DecidableEq, Repr

/-- The `if staleDiscarded > 0 { log.Info(...) }` guard before each return
of `Borrow`. -/
def summaryCount (sd : Nat) : Nat := if 0 < sd then 1 else 0

/-- The `for { select { ... } }` loop of `BackendPool.Borrow`.  `cancelled`
models `ctx.Done()` (held constant for the call: Go's `select` would pick
the done arm whenever it is ready); the FIFO channel is the list `conns`,
dequeued front-first; `now` is the instant of the call (`time.Since`);
`sd` accumulates the per-call `staleDiscarded` counter. -/
def borrowLoop (cancelled : Bool) (maxLife now : Int) (sd ageN refN : Nat) :
    List PooledConn → BorrowResult
  | [] =>
    if cancelled then
      { outcome := .ctxErr, summaryLines := summaryCount sd,
        staleDiscarded := sd, ageDiscards := ageN, refills := refN }
    else
      { outcome := .factory, summaryLines := summaryCount sd,
        staleDiscarded := sd, ageDiscards := ageN, refills := refN }
  | c :: rest =>
    if cancelled then
      { outcome := .ctxErr, summaryLines := summaryCount sd,
        staleDiscarded := sd, ageDiscards := ageN, refills := refN }
    else if now - c.createdAt > maxLife then
      borrowLoop cancelled maxLife now sd (ageN + 1) (refN + 1) rest
    else if c.pingOk then
      { outcome := .pooled c.id, summaryLines := summaryCount sd,
        staleDiscarded := sd, ageDiscards := ageN, refills := refN + 1 }
    else
      borrowLoop cancelled maxLife now (sd + 1) ageN (refN + 1) rest

/-- `BackendPool.Borrow`: the loop entered with a zeroed per-call
counter. -/
def BackendPool.Borrow (cancelled : Bool) (maxLife now : Int)
    (conns : List PooledConn) : BorrowResult :=
  borrowLoop cancelled maxLife now 0 0 0 conns

theorem borrowLoop_summary (cancelled : Bool) (maxLife now : Int) :
    ∀ (conns : List PooledConn) (sd ageN refN : Nat),
      (borrowLoop cancelled maxLife now sd ageN refN conns).summaryLines =
        summaryCount
          ((borrowLoop cancelled maxLife now sd ageN refN conns).staleDiscarded) ∧
      sd ≤ (borrowLoop cancelled maxLife now sd ageN refN conns).staleDiscarded := by
  intro conns
  induction conns with
  | nil =>
    intro sd ageN refN
    by_cases hc : cancelled <;> simp [borrowLoop, hc]
  | cons c rest ih =>
    intro sd ageN refN
    by_cases hc : cancelled
    · simp [borrowLoop, hc]
    · by_cases hage : now - c.createdAt > maxLife
      · simpa [borrowLoop, hc, hage] using ih sd (ageN + 1) (refN + 1)
      · by_cases hping : c.pingOk
        · simp [borrowLoop, hc, hage, hping]
        · have hrec := ih (sd + 1) ageN (refN + 1)
          have heq : borrowLoop cancelled maxLife now sd ageN refN (c :: rest) =
              borrowLoop cancelled maxLife now (sd + 1) ageN (refN + 1) rest := by
            simp [borrowLoop, hc, hage, hping]
          rw [heq]
          exact ⟨hrec.1, Nat.le_trans (Nat.le_succ sd) hrec.2⟩

/-- C2 counterexample: a `Borrow` call on a pool holding one session older
than the maximum age (age 100 > maxLife 10) with a healthy liveness check.
The session is stale by the specification's glossary ("older than maximum
age or failing a liveness check") and it is discarded, yet the call emits
zero summary lines, because the age-discard branch of `Borrow` does not
touch the `staleDiscarded` counter.  This refutes the claimed "0 iff no
stale session was discarded". -/
theorem C2_counterexample :
    ((1000 : Int) - 900 > 10) ∧
    (BackendPool.Borrow false 10 1000
      [{ createdAt := 900, pingOk := true, pingErr := "", id := 7 }]).ageDiscards = 1 ∧
    (BackendPool.Borrow false 10 1000
      [{ createdAt := 900, pingOk := true, pingErr := "", id := 7 }]).staleDiscarded = 0 ∧
    (BackendPool.Borrow false 10 1000
      [{ createdAt := 900, pingOk := true, pingErr := "", id := 7 }]).summaryLines = 0 ∧
    (BackendPool.Borrow false 10 1000
      [{ createdAt := 900, pingOk := true, pingErr := "", id := 7 }]).outcome = .factory := by
  decide

/-- C2 (amended): for every single `Borrow` call — any cancellation state,
any pool contents — the number of "refreshed stale pooled connections"
summary log lines emitted is 0 or 1, and it is 0 iff no pooled session
failing the liveness check was discarded during that call (sessions
discarded purely for exceeding the maximum age do not increment the
counter and are excluded). -/
theorem C2_borrow_summary_discipline :
    ∀ (cancelled : Bool) (maxLife now : Int) (conns : List PooledConn),
      (BackendPool.Borrow cancelled maxLife now conns).summaryLines ≤ 1 ∧
      ((BackendPool.Borrow cancelled maxLife now conns).summaryLines = 0 ↔
        (BackendPool.Borrow cancelled maxLife now conns).staleDiscarded = 0) := by
  intro cancelled maxLife now conns
  have h := (borrowLoop_summary cancelled maxLife now conns 0 0 0).1
  unfold BackendPool.Borrow at *
  rw [h]
  unfold summaryCount
  constructor
  · split <;> simp
  · split <;> omega

/-- The per-profile concurrency state of `Proxy.Run`: the `nextConnID`
atomic counter, the number of semaphore slots currently held (the fill of
the buffered channel `sem`), and the ids of dispatched workers that have
not yet exited. -/
structure ProxyState where
  nextConnID : Nat
  held : Nat
  runningWorkers : List Nat
deriving DecidableEq, Repr

/-- A freshly constructed proxy: no connections accepted, no slots held. -/
def ProxyState.init : ProxyState :=
  { nextConnID := 0, held := 0, runningWorkers := [] }

/-- The accept-loop / worker-teardown transitions of `Proxy.Run` at
capacity `cap` (= `maxConns`).  `accept` models the sequence
`p.sem <- struct{}{}` (which blocks unless `held < cap`, hence the guard),
`connID := p.nextConnID.Add(1)`, and the dispatch of the worker goroutine —
exactly one slot acquired per accepted client, before dispatch.  `finish`
models the worker's scoped teardown `defer func() { <-p.sem }()`, which Go
runs on every exit path including panics — exactly one slot released per
worker exit. -/
inductive ProxyStep (cap : Nat) : ProxyState → ProxyState → Prop
  | accept (s : ProxyState) (h : s.held < cap) :
      ProxyStep cap s
        { nextConnID := s.nextConnID + 1, held := s.held + 1,
          runningWorkers := (s.nextConnID + 1) :: s.runningWorkers }
  | finish (s : ProxyState) (id : Nat) (h : id ∈ s.runningWorkers) :
      ProxyStep cap s
        { nextConnID := s.nextConnID, held := s.held - 1,
          runningWorkers := s.runningWorkers.erase id }

/-- States of a running proxy reachable from startup. -/
def ProxyReachable (cap : Nat) (s : ProxyState) : Prop :=
  Relation.ReflTransGen (ProxyStep cap) ProxyState.init s

/-- C4: Concurrency-cap invariant.  In every reachable state of a running
proxy, the number of held semaphore slots equals the number of accepted
clients whose workers have not yet exited (each accepted client acquired
exactly one slot at dispatch and each worker exit — the deferred release
runs even on panic — returned exactly one), and the held-slot count never
exceeds the configured capacity. -/
theorem C4_semaphore_cap_invariant :
    ∀ (cap : Nat) (s : ProxyState), ProxyReachable cap s →
      s.held = s.runningWorkers.length ∧ s.held ≤ cap := by
  intro cap s h
  induction h with
  | refl => exact ⟨rfl, Nat.zero_le _⟩
  | tail _ step ih =>
    cases step with
    | accept hlt =>
      exact ⟨by simp [ih.1], hlt⟩
    | finish id hmem =>
      refine ⟨?_, Nat.le_trans (Nat.sub_le _ _) ih.2⟩
      simp only [List.length_erase_of_mem hmem, ih.1]

theorem C4_witness :
    ({ nextConnID := 1, held := 1, runningWorkers := [1] } :
        ProxyState).held =
      ({ nextConnID := 1, held := 1, runningWorkers := [1] } :
        ProxyState).runningWorkers.length ∧
    ({ nextConnID := 1, held := 1, runningWorkers := [1] } :
        ProxyState).held ≤ 2 :=
  C4_semaphore_cap_invariant 2 _
    (Relation.ReflTransGen.single
      (ProxyStep.accept ProxyState.init (by decide)))

/-- A Go `error` value as the pipe and its classifier observe them:
`io.EOF`, the `net.ErrClosed` sentinel, or an ordinary error carrying a
message (`errors.New` / wrapped I/O errors).  `errors.Is` on the two
sentinels is identity of the constructor. -/
inductive GoErr
  | eof
  | errClosed
  | simple (msg : String)
deriving DecidableEq, Repr

/-- `err.Error()`. -/
def GoErr.message : GoErr → String
  | .eof => "EOF"
  | .errClosed => "use of closed network connection"
  | .simple m => m

/-- Is `sub` an infix of `l`?  Executable model of `strings.Contains` on
the character lists. -/
def infixIn (sub : List Char) : List Char → Bool
  | [] => sub.isEmpty
  | c :: rest => sub.isPrefixOf (c :: rest) || infixIn sub rest

/-- `strings.Contains s sub`. -/
def goContains (s sub : String) : Bool :=
  infixIn sub.data s.data

/-- `proxy.isUseOfClosedConn`. -/
def isUseOfClosedConn (e : Option GoErr) : Bool :=
  match e with
  | none => false
  | some err => goContains err.message "use of closed network connection"

/-- `proxy.isConnCloseErr`: nil is not a close error; the `net.ErrClosed`
and `io.EOF` sentinels are; otherwise classify by message substring. -/
def isConnCloseErr (e : Option GoErr) : Bool :=
  match e with
  | none => false
  | some err =>
    if err = .errClosed ∨ err = .eof then true
    else
      goContains err.message "connection reset by peer" ||
      goContains err.message "broken pipe" ||
      goContains err.message "read/write on closed pipe" ||
      isUseOfClosedConn (some err)

/-- C6: Benign-error classification: `isConnCloseErr` is true on `io.EOF`,
on the canonical "network closed" sentinel `net.ErrClosed`, and on every
error whose message contains "broken pipe", "connection reset by peer" or
"use of closed network connection"; it is false on a nil error and on the
unrelated message "unexpected protocol failure". -/
theorem C6_isConnCloseErr_classification :
    isConnCloseErr (some .eof) = true ∧
    isConnCloseErr (some .errClosed) = true ∧
    (∀ m : String, goContains m "broken pipe" = true →
      isConnCloseErr (some (.simple m)) = true) ∧
    (∀ m : String, goContains m "connection reset by peer" = true →
      isConnCloseErr (some (.simple m)) = true) ∧
    (∀ m : String, goContains m "use of closed network connection" = true →
      isConnCloseErr (some (.simple m)) = true) ∧
    isConnCloseErr none = false ∧
    isConnCloseErr (some (.simple "unexpected protocol failure")) = false := by
  refine ⟨rfl, rfl, ?_, ?_, ?_, rfl, by decide⟩
  · intro m h
    simp [isConnCloseErr, GoErr.message, h]
  · intro m h
    simp [isConnCloseErr, GoErr.message, h]
  · intro m h
    simp [isConnCloseErr, isUseOfClosedConn, GoErr.message, h]

theorem C6_witness :
    goContains "write: broken pipe" "broken pipe" = true ∧
    isConnCloseErr (some (.simple "write: broken pipe")) = true :=
  ⟨by decide,
    C6_isConnCloseErr_classification.2.2.1 "write: broken pipe" (by decide)⟩

/-- The copy direction that completed first inside `Proxy.pipe`: `up` is
the client→backend `io.Copy`, `down` the backend→client one.  Which one
finishes first is decided by the scheduler and the peers, not by the
code. -/
inductive Dir
  | up
  | down
deriving DecidableEq, Repr

/-- The `(n, err)` pair one `io.Copy` goroutine sends on `resCh`. -/
structure copyResult where
  n : Int
  err : Option GoErr
deriving DecidableEq, Repr

/-- What `Proxy.pipe` returns. -/
structure PipeReturn where
  up : Int
  down : Int
  err : Option GoErr
deriving DecidableEq, Repr

/-- `Proxy.pipe` after both copy goroutines are resolved, taking their
results in completion order: `first := <-resCh`, both sockets are closed,
`second := <-resCh`, then `up := first.n`, `down := second.n`, and the
first non-benign error in completion order is returned (benign ones are
suppressed to nil).  Note the byte counts are taken from the completion
order, not from the copy directions. -/
def Proxy.pipe (first second : copyResult) : PipeReturn :=
  let up := first.n
  let down := second.n
  if first.err.isSome ∧ isConnCloseErr first.err = false then
    { up := up, down := down, err := first.err }
  else if second.err.isSome ∧ isConnCloseErr second.err = false then
    { up := up, down := down, err := second.err }
  else
    { up := up, down := down, err := none }

/-- The true client→backend byte count, given which direction finished
first. -/
def clientToBackendBytes (firstDir : Dir) (first second : copyResult) : Int :=
  match firstDir with
  | .up => first.n
  | .down => second.n

/-- The true backend→client byte count, given which direction finished
first. -/
def backendToClientBytes (firstDir : Dir) (first second : copyResult) : Int :=
  match firstDir with
  | .up => second.n
  | .down => first.n

/-- C5: `Proxy.pipe` assigns `up := first.n` and `down := second.n` where
`first` is whichever copy goroutine finished first.  When the
backend→client direction finishes first (here with 12 bytes, both copies
ending benignly with EOF) while the client→backend direction moved 13
bytes, the returned `up` is 12 — the backend→client count — although the
claim (and the code's own `bytes_up`/`bytes_down` log labels) require `up`
to be the client→backend count 13.  Error suppression itself behaves as
claimed: both EOF results are benign and the returned error is nil. -/
theorem C5_pipe_byte_counts_swapped :
    (Proxy.pipe { n := 12, err := some .eof } { n := 13, err := some .eof }).up = 12 ∧
    (Proxy.pipe { n := 12, err := some .eof } { n := 13, err := some .eof }).down = 13 ∧
    (Proxy.pipe { n := 12, err := some .eof } { n := 13, err := some .eof }).err = none ∧
    clientToBackendBytes .down { n := 12, err := some .eof }
      { n := 13, err := some .eof } = 13 ∧
    (Proxy.pipe { n := 12, err := some .eof } { n := 13, err := some .eof }).up ≠
      clientToBackendBytes .down { n := 12, err := some .eof }
        { n := 13, err := some .eof } := by
  decide

/-- `proxy.trackedConn`: the per-session record in the `active` map.
`client` / `backend` record whether the respective socket is present
(`trackClient` always stores the accepted client socket; `backend` is nil
until `trackBackend` attaches one). -/
structure trackedConn where
  client : Bool
  backend : Bool
  startedAt : Int
deriving DecidableEq, Repr

/-- A socket closed by `forceCloseActive`, tagged with its session id. -/
inductive SocketRef
  | clientOf (id : Nat)
  | backendOf (id : Nat)
deriving DecidableEq, Repr

/-- The `for _, tc := range p.active` loop of `activeSummary`, folding
`if age > oldestAge { oldestAge = age }` over the map entries. -/
def oldestAgeLoop (now : Int) : List (Nat × trackedConn) → Int → Int
  | [], acc => acc
  | e :: rest, acc =>
    oldestAgeLoop now rest
      (if now - e.2.startedAt > acc then now - e.2.startedAt else acc)

/-- `Proxy.activeSummary`: the tracked-session count and the running
maximum of `now - startedAt`, started at 0. -/
def Proxy.activeSummary (now : Int) (active : List (Nat × trackedConn)) :
    Nat × Int :=
  (active.length, oldestAgeLoop now active 0)

/-- `Proxy.forceCloseActive` on the snapshot of the session map: for every
pair, close the client socket if present and the backend socket if
present; the Go function returns the number of `Close` calls, i.e. the
length of this list. -/
def Proxy.forceCloseActive : List (Nat × trackedConn) → List SocketRef
  | [] => []
  | (id, tc) :: rest =>
    (if tc.client then [SocketRef.clientOf id] else []) ++
    (if tc.backend then [SocketRef.backendOf id] else []) ++
    Proxy.forceCloseActive rest

theorem oldestAgeLoop_ge_acc (now : Int) :
    ∀ (l : List (Nat × trackedConn)) (acc : Int),
      acc ≤ oldestAgeLoop now l acc := by
  intro l
  induction l with
  | nil => intro acc; exact le_refl _
  | cons e rest ih =>
    intro acc
    refine le_trans ?_ (ih _)
    split
    · omega
    · exact le_refl _

theorem oldestAgeLoop_mem_le (now : Int) :
    ∀ (l : List (Nat × trackedConn)) (acc : Int) (e : Nat × trackedConn),
      e ∈ l → now - e.2.startedAt ≤ oldestAgeLoop now l acc := by
  intro l
  induction l with
  | nil => intro acc e he; simp at he
  | cons hd rest ih =>
    intro acc e he
    rcases List.mem_cons.1 he with rfl | hmem
    · refine le_trans ?_ (oldestAgeLoop_ge_acc now rest _)
      split <;> omega
    · exact ih _ e hmem

theorem oldestAgeLoop_attained (now : Int) :
    ∀ (l : List (Nat × trackedConn)) (acc : Int),
      oldestAgeLoop now l acc = acc ∨
      ∃ e ∈ l, oldestAgeLoop now l acc = now - e.2.startedAt := by
  intro l
  induction l with
  | nil => intro acc; exact Or.inl rfl
  | cons hd rest ih =>
    intro acc
    rcases ih (if now - hd.2.startedAt > acc then now - hd.2.startedAt
        else acc) with heq | ⟨e, hmem, heq⟩
    · by_cases hgt : now - hd.2.startedAt > acc
      · right
        refine ⟨hd, List.mem_cons_self _ _, ?_⟩
        simpa [oldestAgeLoop, if_pos hgt] using heq
      · left
        simpa [oldestAgeLoop, if_neg hgt] using heq
    · right
      exact ⟨e, List.mem_cons_of_mem _ hmem, heq⟩

theorem forceCloseActive_length :
    ∀ (active : List (Nat × trackedConn)),
      (∀ e ∈ active, e.2.client = true) →
      (Proxy.forceCloseActive active).length =
        2 * active.countP (fun e => e.2.backend) +
          active.countP (fun e => !e.2.backend) := by
  intro active
  induction active with
  | nil => intro _; rfl
  | cons hd rest ih =>
    intro hcl
    obtain ⟨id, tc⟩ := hd
    have hc : tc.client = true := hcl (id, tc) (List.mem_cons_self _ _)
    have hrest := ih (fun e he => hcl e (List.mem_cons_of_mem _ he))
    cases hb : tc.backend <;>
      simp [Proxy.forceCloseActive, hc, hb, List.countP_cons, hrest] <;>
      omega

theorem forceCloseActive_mem :
    ∀ (active : List (Nat × trackedConn)) (e : Nat × trackedConn),
      e ∈ active →
      (e.2.client = true →
        SocketRef.clientOf e.1 ∈ Proxy.forceCloseActive active) ∧
      (e.2.backend = true →
        SocketRef.backendOf e.1 ∈ Proxy.forceCloseActive active) := by
  intro active
  induction active with
  | nil => intro e he; simp at he
  | cons hd rest ih =>
    intro e he
    obtain ⟨id, tc⟩ := hd
    rcases List.mem_cons.1 he with rfl | hmem
    · constructor
      · intro hc
        have hc' : tc.client = true := hc
        simp [Proxy.forceCloseActive, hc']
      · intro hb
        have hb' : tc.backend = true := hb
        simp [Proxy.forceCloseActive, hb']
    · have := ih e hmem
      constructor
      · intro hc
        simp [Proxy.forceCloseActive, List.mem_append, this.1 hc]
      · intro hb
        simp [Proxy.forceCloseActive, List.mem_append, this.2 hb]

/-- C7: Shutdown accounting.  For any state of the tracked-session map
whose start times are not in the future (every entry was tracked at or
before `now`) and whose entries all carry their client socket (as
`trackClient` guarantees): `activeSummary` returns the number of tracked
sessions paired with the maximum of `now - startedAt` over them (`(0, 0)`
on the empty map), and `forceCloseActive` closes the client socket of
every tracked session and the backend socket of every session with a
backend attached, its count equalling `2 * sessions-with-backend +
sessions-without-backend`. -/
theorem C7_shutdown_accounting :
    ∀ (now : Int) (active : List (Nat × trackedConn)),
      (∀ e ∈ active, e.2.startedAt ≤ now) →
      (∀ e ∈ active, e.2.client = true) →
      (Proxy.activeSummary now active).1 = active.length ∧
      (active = [] → Proxy.activeSummary now active = (0, 0)) ∧
      (∀ e ∈ active,
        now - e.2.startedAt ≤ (Proxy.activeSummary now active).2) ∧
      (active ≠ [] → ∃ e ∈ active,
        (Proxy.activeSummary now active).2 = now - e.2.startedAt) ∧
      (Proxy.forceCloseActive active).length =
        2 * active.countP (fun e => e.2.backend) +
          active.countP (fun e => !e.2.backend) ∧
      (∀ e ∈ active,
        SocketRef.clientOf e.1 ∈ Proxy.forceCloseActive active ∧
        (e.2.backend = true →
          SocketRef.backendOf e.1 ∈ Proxy.forceCloseActive active)) := by
  intro now active hstart hclient
  refine ⟨rfl, ?_, ?_, ?_, forceCloseActive_length active hclient, ?_⟩
  · intro h; subst h; rfl
  · intro e he; exact oldestAgeLoop_mem_le now active 0 e he
  · intro hne
    rcases oldestAgeLoop_attained now active 0 with heq | ⟨e, hmem, heq⟩
    · match active, hne with
      | e :: rest, _ =>
        refine ⟨e, List.mem_cons_self _ _, ?_⟩
        have h1 := oldestAgeLoop_mem_le now (e :: rest) 0 e
          (List.mem_cons_self _ _)
        have h2 := hstart e (List.mem_cons_self _ _)
        have h3 : (Proxy.activeSummary now (e :: rest)).2 = 0 := heq
        simp only [Proxy.activeSummary] at *
        omega
    · exact ⟨e, hmem, heq⟩
  · intro e he
    exact ⟨(forceCloseActive_mem active e he).1 (hclient e he),
      fun hb => (forceCloseActive_mem active e he).2 hb⟩

/-- The session-map snapshot of the force-close scenario in the test
suite: session 42 has a backend attached, session 7 does not. -/
def activeW : List (Nat × trackedConn) :=
  [(42, { client := true, backend := true, startedAt := 3 }),
   (7, { client := true, backend := false, startedAt := 0 })]

theorem C7_witness :
    (Proxy.activeSummary 5 activeW).1 = activeW.length ∧
    (activeW ≠ [] → ∃ e ∈ activeW,
      (Proxy.activeSummary 5 activeW).2 = 5 - e.2.startedAt) ∧
    (Proxy.forceCloseActive activeW).length =
      2 * activeW.countP (fun e => e.2.backend) +
        activeW.countP (fun e => !e.2.backend) := by
  have h := C7_shutdown_accounting 5 activeW (by decide) (by decide)
  exact ⟨h.1, h.2.2.2.1, h.2.2.2.2.1⟩

end proxy

namespace config

/-- `config.maxConnsHardLimit` (exported by `MaxConnsHardLimit()`). -/
def maxConnsHardLimit : Int := 200

/-- Index of the last occurrence of `ch`. -/
def lastIdxOf (ch : Char) : List Char → Option Nat
  | [] => none
  | c :: rest =>
    match lastIdxOf ch rest with
    | some i => some (i + 1)
    | none => if c = ch then some 0 else none

/-- Models the stdlib `net.SplitHostPort`: split at the last colon;
a host containing colons must be bracketed `[host]:port`; otherwise a
colon inside the host ("too many colons") is an error. -/
def splitHostPort (addr : String) : Option (String × String) :=
  let cs := addr.data
  match lastIdxOf ':' cs with
  | none => none
  | some i =>
    let host0 := cs.take i
    let port := cs.drop (i + 1)
    match host0 with
    | '[' :: inner =>
      match inner.getLast? with
      | some ']' => some (⟨inner.dropLast⟩, ⟨port⟩)
      | _ => none
    | _ =>
      if host0.contains ':' then none
      else some (⟨host0⟩, ⟨port⟩)

/-- Split a character list on a separator character. -/
def splitOnChar (sep : Char) : List Char → List (List Char)
  | [] => [[]]
  | c :: rest =>
    let r := splitOnChar sep rest
    if c = sep then [] :: r
    else
      match r with
      | [] => [[c]]
      | g :: gs => (c :: g) :: gs

/-- One dotted-decimal IPv4 field per `net.ParseIP`: 1–3 decimal digits,
no leading zero, value ≤ 255. -/
def parseOctet (cs : List Char) : Option Nat :=
  match cs with
  | [] => none
  | ['0'] => some 0
  | '0' :: _ :: _ => none
  | _ =>
    if cs.all (·.isDigit) ∧ cs.length ≤ 3 then
      let n := cs.foldl (fun acc c => acc * 10 + (c.toNat - 48)) 0
      if n ≤ 255 then some n else none
    else none

/-- IPs are 16-byte lists, as `net.IP` represents both families; a parsed
IPv4 address becomes the 4-in-6 mapped form. -/
def v4mapped (a b c d : Nat) : List Nat :=
  [0, 0, 0, 0, 0, 0, 0, 0, 0, 0, 255, 255, a, b, c, d]

/-- Dotted-quad IPv4 literal. -/
def parseIPv4 (s : String) : Option (List Nat) :=
  match (splitOnChar '.' s.data).mapM parseOctet with
  | some [a, b, c, d] => some (v4mapped a b c d)
  | _ => none

/-- Value of a hexadecimal digit. -/
def hexDigitVal (c : Char) : Option Nat :=
  if '0' ≤ c ∧ c ≤ '9' then some (c.toNat - 48)
  else if 'a' ≤ c ∧ c ≤ 'f' then some (c.toNat - 97 + 10)
  else if 'A' ≤ c ∧ c ≤ 'F' then some (c.toNat - 65 + 10)
  else none

/-- One 16-bit IPv6 group: 1–4 hexadecimal digits. -/
def parseHexGroup (cs : List Char) : Option Nat :=
  if cs.length = 0 ∨ 4 < cs.length then none
  else
    cs.foldl
      (fun acc c =>
        match acc, hexDigitVal c with
        | some n, some v => some (n * 16 + v)
        | _, _ => none)
      (some 0)

/-- Position of the first `::`. -/
def findDoubleColon : List Char → Option Nat
  | ':' :: ':' :: _ => some 0
  | _ :: rest => (findDoubleColon rest).map (· + 1)
  | [] => none

/-- 16-bit groups to bytes, big-endian. -/
def groupsToBytes (gs : List Nat) : List Nat :=
  gs.foldr (fun g acc => g / 256 :: g % 256 :: acc) []

/-- Colon-separated hexadecimal groups. -/
def parseGroups (cs : List Char) : Option (List Nat) :=
  (splitOnChar ':' cs).mapM parseHexGroup

/-- Models the IPv6 side of `net.ParseIP` for hexadecimal-group literals:
either eight groups, or two runs joined by one `::` abbreviating at least
one zero group.  (Dotted-quad 4-in-6 tails are not modelled; such hosts
parse as non-IPs here.) -/
def parseIPv6 (s : String) : Option (List Nat) :=
  let cs := s.data
  match findDoubleColon cs with
  | none =>
    match parseGroups cs with
    | some gs => if gs.length = 8 then some (groupsToBytes gs) else none
    | none => none
  | some i =>
    let l := cs.take i
    let r := cs.drop (i + 2)
    let lg? : Option (List Nat) := if l.isEmpty then some [] else parseGroups l
    let rg? : Option (List Nat) := if r.isEmpty then some [] else parseGroups r
    match lg?, rg? with
    | some lg, some rg =>
      if lg.length + rg.length ≤ 7 then
        some (groupsToBytes lg ++
          List.replicate (2 * (8 - lg.length - rg.length)) 0 ++
          groupsToBytes rg)
      else none
    | _, _ => none

/-- Models `net.ParseIP`: an IPv6 literal if the string contains a colon,
else a dotted-quad IPv4 literal. -/
def parseIP (s : String) : Option (List Nat) :=
  if s.data.contains ':' then parseIPv6 s else parseIPv4 s

/-- Models `net.IP.To4`. -/
def to4 (ip : List Nat) : Option (List Nat) :=
  match ip with
  | [a, b, c, d] => some [a, b, c, d]
  | [0, 0, 0, 0, 0, 0, 0, 0, 0, 0, 255, 255, a, b, c, d] => some [a, b, c, d]
  | _ => none

/-- The 16-byte `::1`. -/
def v6Loopback : List Nat := [0, 0, 0, 0, 0, 0, 0, 0, 0, 0, 0, 0, 0, 0, 0, 1]

/-- Models `net.IP.IsLoopback`: first byte 127 for (mapped) IPv4, `::1`
for IPv6. -/
def ipIsLoopback (ip : List Nat) : Bool :=
  match to4 ip with
  | some (a :: _) => a == 127
  | some [] => false
  | none => ip == v6Loopback

/-- `config.isLoopbackAddr`: split host:port, parse the host as an IP
literal, and ask `IsLoopback`; any failure is non-loopback. -/
def isLoopbackAddr (addr : String) : Bool :=
  match splitHostPort addr with
  | none => false
  | some (host, _) =>
    match parseIP host with
    | none => false
    | some ip => ipIsLoopback ip

/-- `config.validateProfile`. -/
def validateProfile (p : Profile) : Except String Unit :=
  if p.Name = "" then .error "name is required"
  else if p.ProxyUser = "" then .error "proxy_user is required"
  else if p.MaxConns < 1 then .error "max_conns must be >= 1"
  else if p.MaxConns > maxConnsHardLimit then
    .error ("max_conns must be <= " ++ toString maxConnsHardLimit)
  else if p.RDSHost = "" then .error "rds_host is required"
  else if p.RDSRegion = "" then .error "rds_region is required"
  else if p.RDSDBUser = "" then .error "rds_db_user is required"
  else if p.ProxyUser = p.RDSDBUser then
    .error "proxy_user and rds_db_user must be different"
  else if p.CABundle = "" then .error "ca_bundle is required"
  else
    match splitHostPort p.ListenAddr with
    | none => .error "invalid listen_addr"
    | some _ => .ok ()

/-- `config.Profile.ValidateRuntime`, with `os.Stat` readability of the CA
bundle abstracted as `fileReadable`. -/
def Profile.ValidateRuntime (fileReadable : String → Bool) (p : Profile)
    (allowDevEmptyPassword : Bool) : Except String Unit :=
  if p.ProxyPassword = "" ∧ allowDevEmptyPassword = false then
    .error "proxy_password is empty"
  else if p.ProxyPassword = "change-me" ∨ p.ProxyPassword = "change-me-too" then
    .error "proxy_password must not use example default value"
  else if isLoopbackAddr p.ListenAddr = false then
    .error ("listen_addr " ++ p.ListenAddr ++ " is not loopback")
  else if fileReadable p.CABundle = false then
    .error "ca_bundle not readable"
  else .ok ()

example : isLoopbackAddr "127.0.0.1:3307" = true := by decide

example : isLoopbackAddr "127.8.9.1:3307" = true := by decide

example : isLoopbackAddr "0.0.0.0:3307" = false := by decide

example : isLoopbackAddr "10.0.0.1:3307" = false := by decide

example : isLoopbackAddr "localhost:3307" = false := by decide

example : isLoopbackAddr "[::1]:3307" = true := by decide

example : isLoopbackAddr "[2001:db8::1]:3307" = false := by decide

example : isLoopbackAddr "127.0.0.1" = false := by decide

example : splitHostPort "127.0.0.1:3307" = some ("127.0.0.1", "3307") := by
  decide

theorem validateProfile_ok_maxConns {p : Profile}
    (h : validateProfile p = .ok ()) :
    1 ≤ p.MaxConns ∧ p.MaxConns ≤ maxConnsHardLimit := by
  simp only [validateProfile] at h
  repeat' split at h
  all_goals first
    | exact absurd h (of_decide_eq_true rfl)
    | (constructor <;> omega)

theorem validateProfile_err_lt {p : Profile}
    (h : validateProfile p = .error "max_conns must be >= 1") :
    p.MaxConns < 1 := by
  simp only [validateProfile] at h
  repeat' split at h
  all_goals first
    | exact absurd h (of_decide_eq_true rfl)
    | omega

theorem validateProfile_err_gt {p : Profile}
    (h : validateProfile p =
      .error ("max_conns must be <= " ++ toString maxConnsHardLimit)) :
    p.MaxConns > maxConnsHardLimit := by
  simp only [validateProfile] at h
  repeat' split at h
  all_goals first
    | exact absurd h (of_decide_eq_true rfl)
    | omega

/-- C8: Max-conns validation bounds.  `validateProfile` returns an error
for every profile whose `max_conns` exceeds the hard cap of 200 and for
every profile whose `max_conns` is below 1; when `max_conns` lies in
[1, 200] neither of the two max-conns errors can be produced (other fields
may still fail their own checks). -/
theorem C8_max_conns_validation :
    (∀ p : Profile, p.MaxConns > maxConnsHardLimit →
      ∃ e, validateProfile p = .error e) ∧
    (∀ p : Profile, p.MaxConns < 1 →
      ∃ e, validateProfile p = .error e) ∧
    (∀ p : Profile, 1 ≤ p.MaxConns → p.MaxConns ≤ maxConnsHardLimit →
      validateProfile p ≠ .error "max_conns must be >= 1" ∧
      validateProfile p ≠
        .error ("max_conns must be <= " ++ toString maxConnsHardLimit)) := by
  refine ⟨?_, ?_, ?_⟩
  · intro p hgt
    cases hv : validateProfile p with
    | error e => exact ⟨e, rfl⟩
    | ok u =>
      cases u
      have := validateProfile_ok_maxConns hv
      omega
  · intro p hlt
    cases hv : validateProfile p with
    | error e => exact ⟨e, rfl⟩
    | ok u =>
      cases u
      have := validateProfile_ok_maxConns hv
      omega
  · intro p h1 h2
    constructor
    · intro hcon
      have := validateProfile_err_lt hcon
      omega
    · intro hcon
      have := validateProfile_err_gt hcon
      omega

/-- The profile of the max-conns validation test, with `max_conns` one
above the hard cap. -/
def profileOverCap : Profile :=
  { Profile.zero with
      Name := "p", ListenAddr := "127.0.0.1:3307", MaxConns := 201,
      ProxyUser := "local_proxy_1", ProxyPassword := "pw", RDSHost := "db",
      RDSRegion := "eu-west-1", RDSDBUser := "db_user_1",
      CABundle := "/tmp/ca.pem" }

theorem C8_witness :
    profileOverCap.MaxConns > maxConnsHardLimit ∧
    (∃ e, validateProfile profileOverCap = .error e) :=
  ⟨by decide, C8_max_conns_validation.1 profileOverCap (by decide)⟩

theorem ValidateRuntime_ok_loopback {fr : String → Bool} {p : Profile}
    {dev : Bool} (h : Profile.ValidateRuntime fr p dev = .ok ()) :
    isLoopbackAddr p.ListenAddr = true := by
  simp only [Profile.ValidateRuntime] at h
  repeat' split at h
  all_goals first
    | exact absurd h (of_decide_eq_true rfl)
    | simp_all

/-- C9: Loopback enforcement.  Whenever the listen address host does not
parse as an IP loopback address, `ValidateRuntime` returns an error; and
whenever `ValidateRuntime` succeeds, the listen address splits into
host:port with a host that is an IP literal whose `IsLoopback` holds. -/
theorem C9_loopback_enforcement :
    (∀ (fr : String → Bool) (dev : Bool) (p : Profile),
      isLoopbackAddr p.ListenAddr = false →
      ∃ e, Profile.ValidateRuntime fr p dev = .error e) ∧
    (∀ (fr : String → Bool) (dev : Bool) (p : Profile),
      Profile.ValidateRuntime fr p dev = .ok () →
      ∃ host port ip, splitHostPort p.ListenAddr = some (host, port) ∧
        parseIP host = some ip ∧ ipIsLoopback ip = true) := by
  constructor
  · intro fr dev p hlb
    cases hv : Profile.ValidateRuntime fr p dev with
    | error e => exact ⟨e, rfl⟩
    | ok u =>
      cases u
      have := ValidateRuntime_ok_loopback hv
      rw [hlb] at this
      exact absurd this (by simp)
  · intro fr dev p hok
    have hlb := ValidateRuntime_ok_loopback hok
    cases hsp : splitHostPort p.ListenAddr with
    | none => simp [isLoopbackAddr, hsp] at hlb
    | some pr =>
      obtain ⟨host, port⟩ := pr
      simp only [isLoopbackAddr, hsp] at hlb
      cases hip : parseIP host with
      | none => simp [hip] at hlb
      | some ip =>
        simp only [hip] at hlb
        exact ⟨host, port, ip, rfl, hip, hlb⟩

/-- The profile of the non-loopback runtime-validation test: listen
address `0.0.0.0:3307`. -/
def profileNonLoopback : Profile :=
  { Profile.zero with
      Name := "p1", ListenAddr := "0.0.0.0:3307", MaxConns := 20,
      ProxyUser := "local_proxy_1", ProxyPassword := "secret",
      RDSHost := "db.example", RDSPort := 3306, RDSRegion := "eu-west-1",
      RDSDBUser := "db_user_1", CABundle := "/tmp/ca.pem" }

theorem C9_witness :
    isLoopbackAddr profileNonLoopback.ListenAddr = false ∧
    (∃ e, Profile.ValidateRuntime (fun _ => true) profileNonLoopback false =
      .error e) :=
  ⟨by decide,
    C9_loopback_enforcement.1 (fun _ => true) false profileNonLoopback
      (by decide)⟩

end config

end RdsIamProxy
